import Mathlib

/-!
Verification development for the fileTT secure file-transfer service.

The Python sources are shallowly embedded:
* bytes are `List Nat` (each element a byte value),
* the external AES-GCM primitive of the `cryptography` library is
  parameterised as a `GCM` structure: GCM is counter-mode XOR with a
  keystream derived from key and nonce, plus a tag computed over the
  ciphertext; the round-trip and framing logic of the repository is proved
  for every such primitive,
* the external HKDF primitive is parameterised as an `HKDFPrim` structure,
* `os.urandom` draws are passed in as explicit arguments,
* the concurrent handlers (`websocket_progress`, `upload_file`,
  `websocket_notifications`) are embedded as state-transition functions over
  the mutable dictionaries they touch, with the received messages and the
  observed cancellation-event values supplied as explicit schedules.

Concrete stand-ins `gcmModel` / `hkdfModel` instantiate the primitive
parameters so that theorems can be evaluated on concrete inputs.
-/

/-- One entry of `progress_tracker` (Backend/main.py line 39):
`{"progress": 0, "message": "Pending", "completed": False, "canceled": False}`.
Python's float progress is modelled in `ℚ`. -/
structure Session where
  progress : ℚ
  message : String
  completed : Bool
  canceled : Bool
deriving DecidableEq

/-- The default session a `defaultdict` access creates. -/
def defaultSession : Session :=
  { progress := 0, message := "Pending", completed := false, canceled := false }

/-- Abstract AES-GCM primitive. `keystream key nonce i` is the i-th
keystream byte of AES-CTR under `key` and `nonce`; `tagOf key nonce ct` is
the 16-byte authentication tag GCM computes over the ciphertext. -/
structure GCM where
  keystream : List Nat → List Nat → Nat → Nat
  tagOf : List Nat → List Nat → List Nat → List Nat
  tag_length : ∀ k n c, (tagOf k n c).length = 16

/-- Counter-mode XOR of a byte list against a keystream, starting at
stream position `i`. -/
def ctrXorFrom (ks : Nat → Nat) : Nat → List Nat → List Nat
  | _, [] => []
  | i, b :: bs => (b ^^^ ks i) :: ctrXorFrom ks (i + 1) bs

/-- Counter-mode XOR of a byte list against a keystream. -/
def ctrXor (ks : Nat → Nat) (data : List Nat) : List Nat :=
  ctrXorFrom ks 0 data

/-- Backend/main.py lines 63-74, `encrypt_data(data, key)`:
`iv = os.urandom(12)` (passed here as the argument `iv`), AES-GCM
encryption, returns `(iv, ciphertext, tag)`. -/
def encrypt_data (P : GCM) (iv : List Nat) (data : List Nat) (key : List Nat) :
    List Nat × List Nat × List Nat :=
  let ciphertext := ctrXor (P.keystream key iv) data
  (iv, ciphertext, P.tagOf key iv ciphertext)

/-- Backend/main.py lines 77-88, `decrypt_data(iv, ciphertext, tag, key)`:
AES-GCM decryption; `none` models the `InvalidTag` exception raised when
the tag does not verify. -/
def decrypt_data (P : GCM) (iv ciphertext tag key : List Nat) : Option (List Nat) :=
  if P.tagOf key iv ciphertext = tag then
    some (ctrXor (P.keystream key iv) ciphertext)
  else
    none

/-- Backend/main.py line 310: the stored wire frame is
`iv + tag + ciphertext`. -/
def wire_frame (iv tag ciphertext : List Nat) : List Nat :=
  iv ++ tag ++ ciphertext

/-- Modelled from the spec: the receiving side is not part of src/; per the
spec's wire-framing sentence it slices the frame by the fixed 12-byte nonce
and 16-byte tag prefix lengths, the remainder being ciphertext.
Returns `(nonce, tag, ciphertext)`. -/
def slice_frame (fr : List Nat) : List Nat × List Nat × List Nat :=
  (fr.take 12, (fr.drop 12).take 16, fr.drop 28)

/-- Concrete GCM instance used to evaluate theorems on concrete inputs
(stands in for the external AES implementation). -/
def gcmModel : GCM where
  keystream := fun key nonce i => (key.sum + nonce.sum + i) % 256
  tagOf := fun key nonce ct => List.replicate 16 ((key.sum + nonce.sum + ct.sum) % 256)
  tag_length := fun _ _ _ => List.length_replicate 16 _

/-- UTF-8 byte encoding of the (ASCII) info labels passed to
`info.encode()`. -/
def strBytes (s : String) : List Nat :=
  s.toList.map Char.toNat

/-- Abstract HKDF primitive (the `cryptography` library's
`HKDF(algorithm=SHA256, length, salt, info).derive(key_material)`):
`derive salt key_material info length` is the derived output key. -/
structure HKDFPrim where
  derive : List Nat → List Nat → List Nat → Nat → List Nat

namespace ClientA

/-- SPAKE/client_A.py lines 10-24, `hkdf_expand(session_secret_key, info,
length=32)`: draws `salt = os.urandom(16)` (passed here as the argument
`salt`) and returns only `HKDF(...).derive(session_secret_key)` — the salt
is not part of the return value. -/
def hkdf_expand (H : HKDFPrim) (salt session_secret_key : List Nat)
    (info : String) (length : Nat) : List Nat :=
  H.derive salt session_secret_key (strBytes info) length

end ClientA

namespace ClientB

/-- SPAKE/client_B.py lines 8-15, `hkdf_expand(key_material, info,
length=32)`: calls HKDF with `salt=None`; the library then uses a
zero-filled salt of hash length (32 zero bytes for SHA-256). -/
def hkdf_expand (H : HKDFPrim) (key_material : List Nat)
    (info : String) (length : Nat) : List Nat :=
  H.derive (List.replicate 32 0) key_material (strBytes info) length

end ClientB

namespace Backend

/-- Backend/main.py lines 46-60, `hkdf_expand(session_secret_key, info,
length=32)`: identical to the client_A version — random 16-byte salt
(passed here as the argument `salt`), only the derived key is returned. -/
def hkdf_expand (H : HKDFPrim) (salt session_secret_key : List Nat)
    (info : String) (length : Nat) : List Nat :=
  H.derive salt session_secret_key (strBytes info) length

end Backend

/-- Concrete HKDF instance used to evaluate theorems on concrete inputs
(stands in for the external HKDF implementation; it is injective in the
salt for 16-byte salts and 32-byte outputs, as a collision-free KDF is). -/
def hkdfModel : HKDFPrim where
  derive := fun salt km info len =>
    (salt ++ [251] ++ km ++ [252] ++ info ++ List.replicate len 0).take len

/-- Outcome of the key-confirmation phase: whether each side's equality
check of the received confirm value against its expectation passes. -/
structure ConfirmOutcome where
  clientAccepts : Bool
  serverAccepts : Bool
deriving DecidableEq

/-- SPAKE/client_A.py lines 56-65 together with SPAKE/client_B.py lines
51-60, messages delivered intact: both sides hold the same SPAKE2 shared
key `key` (same password); A draws fresh random salts `saltA1`, `saltA2`
for its two `hkdf_expand` calls; B's `hkdf_expand` has no salt argument.
`clientAccepts` is A's check `recv_B == expected_confirm_B`;
`serverAccepts` is B's check `recv_A == expected_confirm_A`. -/
def key_confirmation (H : HKDFPrim) (key saltA1 saltA2 : List Nat) : ConfirmOutcome :=
  let confirm_A := ClientA.hkdf_expand H saltA1 key "confirm_A" 32
  let expected_confirm_B := ClientA.hkdf_expand H saltA2 key "confirm_B" 32
  let expected_confirm_A := ClientB.hkdf_expand H key "confirm_A" 32
  let confirm_B := ClientB.hkdf_expand H key "confirm_B" 32
  { clientAccepts := decide (confirm_B = expected_confirm_B)
    serverAccepts := decide (confirm_A = expected_confirm_A) }

/-- Shape of a Python return value that is either a single bytes object or
a pair of bytes objects. -/
inductive PyVal
  | bytes (b : List Nat)
  | pair (fst snd : List Nat)
deriving DecidableEq

/-- The return value of SPAKE/client_A.py's `hkdf_expand` (lines 10-24) as
a Python value: a single bytes object holding the derived key. -/
def hkdf_expand_ret (H : HKDFPrim) (salt session_secret_key : List Nat)
    (info : String) : PyVal :=
  PyVal.bytes (ClientA.hkdf_expand H salt session_secret_key info 32)

/-- Modelled from the spec: `expand(raw_secret, purpose_label,
output_length) -> (salt, derived_key)` — the KeyDerivation contract says
the freshly drawn salt is returned together with the derived key. -/
def expand_spec (H : HKDFPrim) (salt raw_secret : List Nat)
    (purpose_label : String) (output_length : Nat) : PyVal :=
  PyVal.pair salt (H.derive salt raw_secret (strBytes purpose_label) output_length)

/-- The chunking performed by the `f.read(chunk_size)` loop, with a
structural fuel argument so the function reduces definitionally: each
nonempty read consumes at least one byte, so a fuel of the file length
never runs out. -/
def chunksOfFuel (n : Nat) : Nat → List Nat → List (List Nat)
  | _, [] => []
  | 0, _ :: _ => []
  | fuel + 1, b :: bs =>
      if n = 0 then [] else (b :: bs).take n :: chunksOfFuel n fuel ((b :: bs).drop n)

/-- Successive `chunk_size`-byte slices of the file (an empty read ends the
loop; a zero chunk size, which would loop forever in Python, yields no
chunks). -/
def chunksOf (n : Nat) (l : List Nat) : List (List Nat) :=
  chunksOfFuel n l.length l

/-- The external `AESGCM.encrypt(nonce, plaintext, None)`: returns
ciphertext ‖ tag as one byte string. -/
def aesgcm_encrypt (P : GCM) (key nonce plaintext : List Nat) : List Nat :=
  ctrXor (P.keystream key nonce) plaintext ++
    P.tagOf key nonce (ctrXor (P.keystream key nonce) plaintext)

/-- SPAKE_protocal.py lines 5-33, `send_encrypted_file(ws, file_path,
aesgcm, nonce, chunk_size)`: streams the file in `chunk_size`-byte chunks
and encrypts each chunk with `aesgcm.encrypt(nonce, plaintext, None)` —
the SAME `nonce` argument for every chunk. Returns the list of
`(nonce, ciphertext‖tag)` frames sent, one per chunk. -/
def send_encrypted_file (P : GCM) (key : List Nat) (file_data : List Nat)
    (nonce : List Nat) (chunk_size : Nat) : List (List Nat × List Nat) :=
  (chunksOf chunk_size file_data).map (fun plaintext => (nonce, aesgcm_encrypt P key nonce plaintext))

/-- Abstract SPAKE2_A primitive: `startMsg password eph` is the outbound
message of `SPAKE2_A(password).start()` under ephemeral randomness `eph`;
`finishKey password eph msg_in` is the shared key `finish(msg_in)`
returns. -/
structure SpakeAPrim where
  startMsg : List Nat → List Nat → List Nat
  finishKey : List Nat → List Nat → List Nat → List Nat

/-- Backend/main.py lines 97-108, the key-exchange phase of
`websocket_progress`: the server constructs `SPAKE2_A(os.urandom(32))`
(the draw is the argument `rand32`), sends `start()`, receives the
client's message `msg_in`, finishes and derives the session key via
`hkdf_expand(session_key, "file_encryption")` under the fresh HKDF salt
`hsalt`. Returns `(password, msg_out, derived_key)`. -/
def ws_progress_handshake (S : SpakeAPrim) (H : HKDFPrim)
    (rand32 eph hsalt : List Nat) (task_id : String) (msg_in : List Nat) :
    List Nat × List Nat × List Nat :=
  let password := rand32
  let msg_out := S.startMsg password eph
  let session_key := S.finishKey password eph msg_in
  let derived_key := Backend.hkdf_expand H hsalt session_key "file_encryption" 32
  (password, msg_out, derived_key)

/-- Concrete SPAKE2 instance used by witnesses. -/
def spakeModel : SpakeAPrim where
  startMsg := fun password eph => password ++ eph
  finishKey := fun password eph msg_in => password ++ eph ++ msg_in

/-- A client message arriving on the progress WebSocket inside the
`while True` loop of `websocket_progress` (Backend/main.py lines 111-145):
a cancel action, an `upload_chunk` action carrying base64-decoded `iv`,
`ciphertext`, `tag`, a filename and a client-reported progress value, or a
0.5-second receive timeout (no message). -/
inductive WsMsg
  | cancel
  | uploadChunk (iv ciphertext tag : List Nat) (filename : String) (progress : ℚ)
  | timeout

/-- Result of one iteration of the `websocket_progress` loop: the updated
`progress_tracker[task_id]` entry, the cancel-event flag for the task, the
bytes appended to the destination file, and whether the loop exits. -/
structure WsIterOut where
  sess : Session
  evSet : Bool
  sink : List Nat
  exitLoop : Bool

/-- Backend/main.py lines 111-145, one iteration of the
`websocket_progress` message loop (after the progress snapshot is sent):
`cancel` sets the canceled flag, creates the cancel event if missing, sets
it, and sets the message; `upload_chunk` decrypts with
`session_keys[task_id]`, appends the plaintext to the file and overwrites
progress and message (a decryption failure raises, which the outer
`except` records before the handler ends); a timeout does nothing. The
loop then exits iff the (live, aliased) tracker entry has `completed` or
`canceled` true. -/
def ws_progress_iter (P : GCM) (key : List Nat) (s : Session) (evSet : Bool)
    (sink : List Nat) : WsMsg → WsIterOut
  | WsMsg.cancel =>
      let s1 := { s with canceled := true, message := "Upload canceled by client" }
      { sess := s1, evSet := true, sink := sink, exitLoop := s1.completed || s1.canceled }
  | WsMsg.uploadChunk iv ciphertext tag filename progress =>
      match decrypt_data P iv ciphertext tag key with
      | some chunk =>
          let s1 := { s with progress := progress,
                             message := "Received chunk for " ++ filename }
          { sess := s1, evSet := evSet, sink := sink ++ chunk,
            exitLoop := s1.completed || s1.canceled }
      | none =>
          { sess := { s with message := "WebSocket error: InvalidTag" },
            evSet := evSet, sink := sink, exitLoop := true }
  | WsMsg.timeout =>
      { sess := s, evSet := evSet, sink := sink, exitLoop := s.completed || s.canceled }

/-- The global mutable state `cancel_upload` touches: the
`progress_tracker` and `cancel_events` defaultdicts, each modelled as a
membership predicate (Python's `in`) plus a total value function (the
defaultdict lookup); for an event the value is its `is_set` flag. -/
@[ext]
structure CancelState where
  tracker_mem : String → Bool
  tracker : String → Session
  events_mem : String → Bool
  events : String → Bool

/-- Backend/main.py lines 359-371, `cancel_upload(task_id)`: only when
`task_id in progress_tracker` does it set `canceled`, create the cancel
event if missing, set the event and set the message, returning success;
otherwise it returns the error `"Task not found"` and touches nothing.
The returned Bool is true on the success path. -/
def cancel_upload (st : CancelState) (task_id : String) : CancelState × Bool :=
  if st.tracker_mem task_id then
    let s1 := { st.tracker task_id with canceled := true,
                                         message := "Upload canceled by client" }
    ({ tracker_mem := st.tracker_mem,
       tracker := fun k => if k = task_id then s1 else st.tracker k,
       events_mem := fun k => if k = task_id then true else st.events_mem k,
       events := fun k => if k = task_id then true else st.events k }, true)
  else
    (st, false)

/-- State threaded through the `upload_file` chunk loop: the running byte
count, the tracker entry `progress_tracker[task_id]`, and the bytes
written to the destination file. -/
structure UpState where
  bytes_read : Nat
  sess : Session
  sink : List Nat

/-- Backend/main.py lines 307-318, the body of one successful loop pass of
`upload_file`: encrypt the chunk when a session key exists (writing the
frame `iv + tag + ciphertext`) or write it plainly, add the chunk length
to `bytes_read`, and set
`progress = min(100, (bytes_read / total_size) * 100)` and the byte-count
message. -/
def upload_chunk_step (P : GCM) (key? : Option (List Nat)) (nonce : List Nat)
    (total_size : Nat) (st : UpState) (chunk : List Nat) : UpState :=
  let written :=
    match key? with
    | some key =>
        let enc := encrypt_data P nonce chunk key
        enc.1 ++ enc.2.2 ++ enc.2.1
    | none => chunk
  let b2 := st.bytes_read + chunk.length
  { bytes_read := b2,
    sess := { st.sess with
              progress := min 100 (((b2 : ℚ) / (total_size : ℚ)) * 100),
              message := "Uploaded " ++ toString b2 ++ " of " ++
                toString total_size ++ " bytes" },
    sink := st.sink ++ written }

/-- Backend/main.py lines 324-337, the post-loop tail of `upload_file` on
the success path: progress 100, completed true, success message. -/
def upload_finish (filename : String) (st : UpState) : UpState :=
  { st with sess := { st.sess with
      progress := 100, completed := true,
      message := "File " ++ filename ++ " uploaded successfully" } }

/-- Backend/main.py cancellation exits of `upload_file` (lines 275-281,
287-292, 299-305, 325-331): canceled true, "Upload canceled" message, no
write for the in-flight chunk. -/
def upload_cancel_exit (st : UpState) : UpState :=
  { st with sess := { st.sess with
      canceled := true, message := "Upload canceled" } }

/-- Backend/main.py lines 271-344, the chunk loop of `upload_file` run to
completion. Each element of `steps` is one loop pass: the chunk
`file.read` returns and the two values the cancel event is observed to
have, immediately before the read (`e1`) and after it (`e2`); an empty
chunk is end of file. `finalEv` is the event value at the final
check after the loop; `nonces` supplies the `os.urandom(12)` draw for each
encrypted chunk. Returns the final state and the list of tracker-entry
snapshots taken after each mutation. -/
def upload_file_run (P : GCM) (key? : Option (List Nat)) (filename : String)
    (total_size : Nat) :
    List (List Nat) → List (List Nat × Bool × Bool) → Bool → UpState →
    UpState × List Session
  | _, [], finalEv, st =>
      if finalEv then (upload_cancel_exit st, [])
      else (upload_finish filename st, [(upload_finish filename st).sess])
  | nonces, (chunk, e1, e2) :: rest, finalEv, st =>
      if e1 then (upload_cancel_exit st, [])
      else if chunk = [] then
        (if finalEv then (upload_cancel_exit st, [])
         else (upload_finish filename st, [(upload_finish filename st).sess]))
      else if e2 then (upload_cancel_exit st, [])
      else
        let st2 := upload_chunk_step P key? (nonces.headD []) total_size st chunk
        let r := upload_file_run P key? filename total_size nonces.tail rest finalEv st2
        (r.1, st2.sess :: r.2)

/-- The initial `UpState` of an upload: zero bytes read, the defaultdict's
fresh tracker entry, empty file. -/
def initUpState : UpState :=
  { bytes_read := 0, sess := defaultSession, sink := [] }

/-- The global state of the presence channel: the
`websocket_clients["notifications"]` list and the `client_id_connections`
defaultdict (a total function with default `[]`; deleting an emptied key
is the same as mapping it to `[]`). Connections are numbered by `Nat`
tokens. -/
structure PresenceState where
  notif : List Nat
  byClient : String → List Nat

/-- Outcome of one `receive_json` call inside the notifications loop: a
message arrived within the 60-second window, or the wait timed out. -/
inductive RecvOutcome
  | msg
  | timeout
deriving DecidableEq

/-- The event vocabulary of the notification channel. The code emits
`ping` (Backend/main.py line 184) and `upload_complete` (lines 216-220);
`user_connected`, `user_disconnected` and `connected_users` appear only in
the spec's presence contract (modelled from the spec) and are included so
the claimed broadcasts can be stated. -/
inductive NotifEvent
  | ping
  | userConnected (client_id : String)
  | userDisconnected (client_id : String)
  | roster (ids : List String)
  | uploadComplete (filename task_id : String)
deriving DecidableEq

/-- Backend/main.py lines 182-193, the notifications keep-alive loop:
each pass sends `{"action": "ping"}` to the connection itself, then waits
for a message with a 60-second timeout; a timeout breaks the loop, a
received message is ignored and the loop continues. `recvs` is the
schedule of receive outcomes; the run ends when it is exhausted. Returns
the `(target connection, event)` sends, in order. -/
def notifLoop (self : Nat) : List RecvOutcome → List (Nat × NotifEvent)
  | [] => []
  | RecvOutcome.msg :: rest => (self, NotifEvent.ping) :: notifLoop self rest
  | RecvOutcome.timeout :: _ => [(self, NotifEvent.ping)]

/-- Backend/main.py lines 166-180, the registration phase of
`websocket_notifications`: a truthy `client_id` that already has a live
connection is rejected (close code 1008, nothing registered); otherwise
the connection is appended to the notifications list and, when
`client_id` is truthy, to `client_id_connections[client_id]`. The Bool is
true iff the connection was accepted. -/
def notif_register (st : PresenceState) (cid : Option String) (self : Nat) :
    PresenceState × Bool :=
  match cid with
  | some c =>
      if c ≠ "" ∧ st.byClient c ≠ [] then (st, false)
      else
        ({ notif := st.notif ++ [self],
           byClient := if c ≠ "" then
               (fun k => if k = c then st.byClient c ++ [self] else st.byClient k)
             else st.byClient }, true)
  | none => ({ st with notif := st.notif ++ [self] }, true)

/-- Backend/main.py lines 198-207, the `finally` block of
`websocket_notifications`: remove the connection from the notifications
list if present, and from `client_id_connections[client_id]` if the id is
truthy and the connection is present (an emptied key is deleted, i.e.
maps to `[]`). -/
def notif_cleanup (st : PresenceState) (cid : Option String) (self : Nat) :
    PresenceState :=
  let st1 := if self ∈ st.notif then { st with notif := st.notif.erase self } else st
  match cid with
  | some c =>
      if c ≠ "" ∧ self ∈ st1.byClient c then
        { st1 with byClient := fun k => if k = c then (st1.byClient c).erase self
                                        else st1.byClient k }
      else st1
  | none => st1

/-- Backend/main.py lines 165-207, a full run of the
`websocket_notifications` handler: register (or reject a duplicate), run
the keep-alive loop, then the `finally` cleanup. Returns the final state,
the sends performed, and whether the connection was accepted. -/
def websocket_notifications (st : PresenceState) (cid : Option String) (self : Nat)
    (recvs : List RecvOutcome) : PresenceState × List (Nat × NotifEvent) × Bool :=
  let r := notif_register st cid self
  if r.2 then (notif_cleanup r.1 cid self, notifLoop self recvs, true)
  else (notif_cleanup r.1 cid self, [], false)

/-- Backend/main.py lines 210-225, `broadcast_upload_complete`: sends the
`upload_complete` event to every connection in the notifications list. -/
def broadcast_upload_complete (st : PresenceState) (task_id filename : String) :
    List (Nat × NotifEvent) :=
  st.notif.map (fun w => (w, NotifEvent.uploadComplete filename task_id))


theorem ctrXorFrom_ctrXorFrom (ks : Nat → Nat) (l : List Nat) :
    ∀ i, ctrXorFrom ks i (ctrXorFrom ks i l) = l := by
  induction l with
  | nil => intro i; rfl
  | cons b bs ih =>
      intro i
      simp [ctrXorFrom, Nat.xor_cancel_right, ih (i + 1)]

theorem ctrXor_ctrXor (ks : Nat → Nat) (l : List Nat) :
    ctrXor ks (ctrXor ks l) = l :=
  ctrXorFrom_ctrXorFrom ks l 0

theorem slice_frame_wire_frame (iv tag ciphertext : List Nat)
    (hiv : iv.length = 12) (htag : tag.length = 16) :
    slice_frame (wire_frame iv tag ciphertext) = (iv, tag, ciphertext) := by
  unfold slice_frame wire_frame
  have h12 : (iv ++ (tag ++ ciphertext)).take 12 = iv := by
    exact List.take_left' hiv
  have hdrop : (iv ++ (tag ++ ciphertext)).drop 12 = tag ++ ciphertext := by
    exact List.drop_left' hiv
  have h28 : ((iv ++ tag) ++ ciphertext).drop 28 = ciphertext := by
    refine List.drop_left' ?_
    simp [List.length_append, hiv, htag]
  simp only [List.append_assoc] at h28 ⊢
  rw [h12, hdrop, List.take_left' htag, h28]

/-- C1: for every GCM primitive, key and buffer, encrypting with a 12-byte
nonce, framing as nonce ‖ tag ‖ ciphertext, slicing the frame at the fixed
12/16-byte prefixes and decrypting recovers the buffer exactly. -/
theorem chunk_roundtrip (P : GCM) (key data iv : List Nat) (hiv : iv.length = 12) :
    let enc := encrypt_data P iv data key
    let parts := slice_frame (wire_frame enc.1 enc.2.2 enc.2.1)
    decrypt_data P parts.1 parts.2.2 parts.2.1 key = some data := by
  intro enc parts
  have hparts : parts = (iv, P.tagOf key iv (ctrXor (P.keystream key iv) data),
      ctrXor (P.keystream key iv) data) := by
    show slice_frame (wire_frame _ _ _) = _
    exact slice_frame_wire_frame _ _ _ hiv (P.tag_length _ _ _)
  rw [hparts]
  unfold decrypt_data
  rw [if_pos rfl, ctrXor_ctrXor]

/-- Witness for C1 at a concrete input. -/
theorem chunk_roundtrip_witness :
    (List.replicate 12 3).length = 12 ∧
    (let enc := encrypt_data gcmModel (List.replicate 12 3) [10, 20] [1]
     let parts := slice_frame (wire_frame enc.1 enc.2.2 enc.2.1)
     decrypt_data gcmModel parts.1 parts.2.2 parts.2.1 [1] = some [10, 20]) :=
  ⟨by decide, chunk_roundtrip gcmModel [1] [10, 20] (List.replicate 12 3) (by decide)⟩

/-- C2 fails on the code: with equal passwords (hence the same SPAKE2
shared key) and messages delivered intact, the client's `hkdf_expand` uses
fresh random 16-byte salts that are never transmitted while the server's
uses HKDF's default zero salt, so each side's received confirm value
differs from its expectation and both sides raise the confirmation-failure
error. Evaluated at a concrete failing input. -/
theorem key_confirmation_fails_both_sides :
    key_confirmation hkdfModel [7, 7, 7] (List.replicate 16 1) (List.replicate 16 2) =
      { clientAccepts := false, serverAccepts := false } := by
  decide

/-- For 16-byte salts the concrete HKDF model exposes the salt as the
first 16 bytes of a 32-byte output. -/
theorem hkdfModel_take_salt (s km i : List Nat) (hs : s.length = 16) :
    (hkdfModel.derive s km i 32).take 16 = s := by
  simp only [hkdfModel, List.append_assoc, List.take_take]
  norm_num
  exact List.take_left' hs

/-- C7, amended: `hkdf_expand` derives under the freshly drawn 16-byte
salt but returns only the derived key (not the pair `(salt, key)` the
KeyDerivation contract describes); the derivation is deterministic — the
client_A and Backend copies agree on equal inputs — and under the concrete
HKDF model distinct 16-byte salts yield distinct derived keys. -/
theorem hkdf_expand_amended (H : HKDFPrim) (salt salt2 secret : List Nat) (info : String)
    (h1 : salt.length = 16) (h2 : salt2.length = 16) (hne : salt ≠ salt2) :
    hkdf_expand_ret H salt secret info =
      PyVal.bytes (H.derive salt secret (strBytes info) 32) ∧
    ClientA.hkdf_expand H salt secret info 32 = Backend.hkdf_expand H salt secret info 32 ∧
    ClientA.hkdf_expand hkdfModel salt secret info 32 ≠
      ClientA.hkdf_expand hkdfModel salt2 secret info 32 := by
  refine ⟨rfl, rfl, fun h => hne ?_⟩
  have h16 := congrArg (List.take 16) h
  simp only [ClientA.hkdf_expand] at h16
  rwa [hkdfModel_take_salt _ _ _ h1, hkdfModel_take_salt _ _ _ h2] at h16

/-- C7 counterexample: the claim as stated — `hkdf_expand` returns the
salt together with the derived key — is false at a concrete input: the
actual return value is the bare derived key, not the claimed pair. -/
theorem hkdf_expand_no_salt_counterexample :
    hkdf_expand_ret hkdfModel (List.replicate 16 5) [1, 2, 3] "file_encryption" ≠
      expand_spec hkdfModel (List.replicate 16 5) [1, 2, 3] "file_encryption" 32 := by
  decide

/-- Witness for the amended C7 at a concrete input. -/
theorem hkdf_expand_amended_witness :
    (List.replicate 16 1).length = 16 ∧ (List.replicate 16 2).length = 16 ∧
    List.replicate 16 1 ≠ List.replicate 16 2 ∧
    (hkdf_expand_ret hkdfModel (List.replicate 16 1) [9] "x" =
      PyVal.bytes (hkdfModel.derive (List.replicate 16 1) [9] (strBytes "x") 32) ∧
    ClientA.hkdf_expand hkdfModel (List.replicate 16 1) [9] "x" 32 =
      Backend.hkdf_expand hkdfModel (List.replicate 16 1) [9] "x" 32 ∧
    ClientA.hkdf_expand hkdfModel (List.replicate 16 1) [9] "x" 32 ≠
      ClientA.hkdf_expand hkdfModel (List.replicate 16 2) [9] "x" 32) :=
  ⟨by decide, by decide, by decide,
   hkdf_expand_amended hkdfModel (List.replicate 16 1) (List.replicate 16 2) [9] "x"
     (by decide) (by decide) (by decide)⟩

/-- C3 fails on the code: `send_encrypted_file` encrypts every chunk of a
file with the same nonce argument. Evaluated at a concrete failing input
(a 2-byte file sent in 1-byte chunks): two distinct chunks are encrypted
under the same key and the same nonce, so a nonce value is used twice. -/
theorem nonce_reuse_in_send_encrypted_file :
    (send_encrypted_file gcmModel [1] [10, 20] (List.replicate 12 7) 1).length = 2 ∧
    (∀ c ∈ send_encrypted_file gcmModel [1] [10, 20] (List.replicate 12 7) 1,
      c.1 = List.replicate 12 7) ∧
    (send_encrypted_file gcmModel [1] [10, 20] (List.replicate 12 7) 1).map Prod.fst =
      [List.replicate 12 7, List.replicate 12 7] := by
  refine ⟨by decide, by decide, by decide⟩

/-- C4: in the progress-channel handshake the password fed to
`SPAKE2_A` is exactly the fresh 32-byte random draw; it is invariant under
the transfer id and under any message received from the client, and two runs
with distinct random draws use distinct passwords. -/
theorem progress_password_fresh (S : SpakeAPrim) (H : HKDFPrim)
    (r r' eph eph' hsalt hsalt' : List Nat) (t t' : String) (m m' : List Nat)
    (hr : r ≠ r') :
    (ws_progress_handshake S H r eph hsalt t m).1 = r ∧
    (ws_progress_handshake S H r eph hsalt t m).1 =
      (ws_progress_handshake S H r eph' hsalt' t' m').1 ∧
    (ws_progress_handshake S H r eph hsalt t m).1 ≠
      (ws_progress_handshake S H r' eph hsalt t m).1 :=
  ⟨rfl, rfl, hr⟩

/-- Witness for C4 at a concrete input. -/
theorem progress_password_fresh_witness :
    ([0] : List Nat) ≠ [1] ∧
    ((ws_progress_handshake spakeModel hkdfModel [0] [2] [3] "t1" [4]).1 = [0] ∧
    (ws_progress_handshake spakeModel hkdfModel [0] [2] [3] "t1" [4]).1 =
      (ws_progress_handshake spakeModel hkdfModel [0] [5] [6] "t2" [7]).1 ∧
    (ws_progress_handshake spakeModel hkdfModel [0] [2] [3] "t1" [4]).1 ≠
      (ws_progress_handshake spakeModel hkdfModel [1] [2] [3] "t1" [4]).1) :=
  ⟨by decide,
   progress_password_fresh spakeModel hkdfModel [0] [1] [2] [5] [3] [6] "t1" "t2" [4] [7]
     (by decide)⟩

/-- C5 fails on the code: the `upload_chunk` handler of
`websocket_progress` performs no terminal-state check, so an iteration
that starts with `canceled = true` still decrypts the chunk, appends its
bytes to the file and overwrites progress and message (the loop only
exits afterwards). Evaluated at a concrete failing input. -/
theorem canceled_session_still_processes_chunk :
    let s0 : Session := { progress := 50, message := "m", completed := false, canceled := true }
    let enc := encrypt_data gcmModel (List.replicate 12 0) [1, 2, 3] [9]
    let r := ws_progress_iter gcmModel [9] s0 false []
      (WsMsg.uploadChunk enc.1 enc.2.1 enc.2.2 "a.txt" 60)
    r.sink = [1, 2, 3] ∧ r.sess.progress = 60 ∧
    r.sess.message = "Received chunk for a.txt" ∧ r.sess.canceled = true ∧
    r.exitLoop = true := by
  decide

/-- Helper for C6: `cancel_upload` is idempotent — a second call with the
same task id returns the same answer and leaves the state it produced
unchanged. -/
theorem cancel_upload_idem (st : CancelState) (id : String) :
    cancel_upload (cancel_upload st id).1 id = cancel_upload st id := by
  by_cases h : st.tracker_mem id
  · simp only [cancel_upload, h, if_true]
    refine Prod.ext ?_ rfl
    ext k
    · rfl
    · by_cases hk : k = id <;> simp [hk]
    · by_cases hk : k = id <;> simp [hk]
    · by_cases hk : k = id <;> simp [hk]
  · simp only [Bool.not_eq_true] at h
    simp [cancel_upload, h]

/-- C6 counterexample: the claim as stated — `request_cancel` takes effect
whether or not a session exists, creating a placeholder — is false at a
concrete input: with no session for "t1", `cancel_upload` reports "Task
not found" and leaves every map untouched; no placeholder is created, no
canceled flag is set and no event is signaled. -/
theorem cancel_before_start_counterexample :
    (cancel_upload ⟨fun _ => false, fun _ => defaultSession,
        fun _ => false, fun _ => false⟩ "t1").2 = false ∧
    (cancel_upload ⟨fun _ => false, fun _ => defaultSession,
        fun _ => false, fun _ => false⟩ "t1").1.tracker_mem "t1" = false ∧
    (cancel_upload ⟨fun _ => false, fun _ => defaultSession,
        fun _ => false, fun _ => false⟩ "t1").1.tracker "t1" = defaultSession ∧
    (cancel_upload ⟨fun _ => false, fun _ => defaultSession,
        fun _ => false, fun _ => false⟩ "t1").1.events "t1" = false ∧
    (cancel_upload ⟨fun _ => false, fun _ => defaultSession,
        fun _ => false, fun _ => false⟩ "t1").1.events_mem "t1" = false := by
  exact ⟨by decide, by decide, by decide, by decide, by decide⟩

/-- C6, amended: `cancel_upload` sets canceled, sets the message and
signals the cancellation event only when a session already exists for the
task id — then a second call changes nothing (idempotence) — and when no
session exists it returns the not-found error and leaves all state
unchanged (no placeholder is created). -/
theorem cancel_upload_amended (st st2 : CancelState) (id id2 : String)
    (hmem : st.tracker_mem id = true) (hmem2 : st2.tracker_mem id2 = false) :
    (cancel_upload st id).2 = true ∧
    (cancel_upload st id).1.tracker id =
      { st.tracker id with canceled := true, message := "Upload canceled by client" } ∧
    (cancel_upload st id).1.events id = true ∧
    (cancel_upload st id).1.events_mem id = true ∧
    cancel_upload (cancel_upload st id).1 id = cancel_upload st id ∧
    cancel_upload st2 id2 = (st2, false) := by
  refine ⟨?_, ?_, ?_, ?_, cancel_upload_idem st id, ?_⟩
  · simp [cancel_upload, hmem]
  · simp [cancel_upload, hmem]
  · simp [cancel_upload, hmem]
  · simp [cancel_upload, hmem]
  · simp [cancel_upload, hmem2]

/-- Witness for the amended C6 at a concrete input. -/
theorem cancel_upload_amended_witness :
    (CancelState.mk (fun k => k == "t1") (fun _ => defaultSession)
        (fun _ => false) (fun _ => false)).tracker_mem "t1" = true ∧
    (CancelState.mk (fun _ => false) (fun _ => defaultSession)
        (fun _ => false) (fun _ => false)).tracker_mem "t2" = false ∧
    ((cancel_upload (CancelState.mk (fun k => k == "t1") (fun _ => defaultSession)
        (fun _ => false) (fun _ => false)) "t1").2 = true ∧
    (cancel_upload (CancelState.mk (fun k => k == "t1") (fun _ => defaultSession)
        (fun _ => false) (fun _ => false)) "t1").1.tracker "t1" =
      { defaultSession with canceled := true, message := "Upload canceled by client" } ∧
    (cancel_upload (CancelState.mk (fun k => k == "t1") (fun _ => defaultSession)
        (fun _ => false) (fun _ => false)) "t1").1.events "t1" = true ∧
    (cancel_upload (CancelState.mk (fun k => k == "t1") (fun _ => defaultSession)
        (fun _ => false) (fun _ => false)) "t1").1.events_mem "t1" = true ∧
    cancel_upload (cancel_upload (CancelState.mk (fun k => k == "t1")
        (fun _ => defaultSession) (fun _ => false) (fun _ => false)) "t1").1 "t1" =
      cancel_upload (CancelState.mk (fun k => k == "t1") (fun _ => defaultSession)
        (fun _ => false) (fun _ => false)) "t1" ∧
    cancel_upload (CancelState.mk (fun _ => false) (fun _ => defaultSession)
        (fun _ => false) (fun _ => false)) "t2" =
      (CancelState.mk (fun _ => false) (fun _ => defaultSession)
        (fun _ => false) (fun _ => false), false)) :=
  ⟨by decide, rfl,
   cancel_upload_amended
     (CancelState.mk (fun k => k == "t1") (fun _ => defaultSession)
        (fun _ => false) (fun _ => false))
     (CancelState.mk (fun _ => false) (fun _ => defaultSession)
        (fun _ => false) (fun _ => false))
     "t1" "t2" (by decide) rfl⟩

theorem uploadProgress_nonneg (b total : Nat) :
    0 ≤ min 100 (((b : ℚ) / (total : ℚ)) * 100) :=
  le_min (by norm_num) (by positivity)

theorem uploadProgress_le (b total : Nat) :
    min 100 (((b : ℚ) / (total : ℚ)) * 100) ≤ 100 :=
  min_le_left _ _

theorem uploadProgress_mono (total : Nat) (ht : 1 ≤ total) (b b' : Nat) (h : b ≤ b') :
    min 100 (((b : ℚ) / (total : ℚ)) * 100) ≤
      min 100 (((b' : ℚ) / (total : ℚ)) * 100) := by
  refine min_le_min le_rfl ?_
  have ht' : (0 : ℚ) < (total : ℚ) := by
    exact_mod_cast Nat.lt_of_lt_of_le Nat.zero_lt_one ht
  gcongr

/-- Invariant of the `upload_file` chunk loop with no cancellation: from
any state whose tracker entry is not yet completed and whose progress is
the code's formula for the bytes read so far, the run produces a chain of
non-decreasing progress snapshots within bounds, ends completed at 100,
and only the final snapshot is completed. -/
theorem upload_file_run_spec (P : GCM) (key? : Option (List Nat)) (filename : String)
    (total_size : Nat) (htot : 1 ≤ total_size) :
    ∀ (steps : List (List Nat × Bool × Bool)) (nonces : List (List Nat)) (st : UpState),
      (∀ x ∈ steps, x.2.1 = false ∧ x.2.2 = false) →
      st.sess.completed = false →
      st.sess.progress = min 100 (((st.bytes_read : ℚ) / (total_size : ℚ)) * 100) →
      List.Chain (· ≤ ·) st.sess.progress
        ((upload_file_run P key? filename total_size nonces steps false st).2.map
          Session.progress) ∧
      (∀ s ∈ (upload_file_run P key? filename total_size nonces steps false st).2,
        0 ≤ s.progress ∧ s.progress ≤ 100) ∧
      (upload_file_run P key? filename total_size nonces steps false st).2 ≠ [] ∧
      (upload_file_run P key? filename total_size nonces steps false st).2.getLast? =
        some (upload_file_run P key? filename total_size nonces steps false st).1.sess ∧
      (upload_file_run P key? filename total_size nonces steps false st).1.sess.progress
        = 100 ∧
      (upload_file_run P key? filename total_size nonces steps false st).1.sess.completed
        = true ∧
      (∀ s ∈ (upload_file_run P key? filename total_size nonces
          steps false st).2.dropLast, s.completed = false) := by
  intro steps
  induction steps with
  | nil =>
      intro nonces st hf hc hp
      simp only [upload_file_run, Bool.false_eq_true, if_false, List.map_cons,
        List.map_nil, List.getLast?_singleton, List.dropLast_single]
      refine ⟨?_, ?_, by simp, by simp, rfl, rfl, by simp⟩
      · refine List.Chain.cons ?_ List.Chain.nil
        show st.sess.progress ≤ (upload_finish filename st).sess.progress
        rw [hp]
        exact uploadProgress_le _ _
      · intro s hs
        simp only [List.mem_singleton] at hs
        subst hs
        exact ⟨by norm_num [upload_finish], by norm_num [upload_finish]⟩
  | cons step rest ih =>
      intro nonces st hf hc hp
      obtain ⟨chunk, e1, e2⟩ := step
      have he1 : e1 = false := (hf _ (List.mem_cons_self _ _)).1
      have he2 : e2 = false := (hf _ (List.mem_cons_self _ _)).2
      subst he1; subst he2
      by_cases hch : chunk = []
      · subst hch
        simp only [upload_file_run, Bool.false_eq_true, if_false, if_true,
          List.map_cons, List.map_nil, List.getLast?_singleton,
          List.dropLast_single]
        refine ⟨?_, ?_, by simp, by simp, rfl, rfl, by simp⟩
        · refine List.Chain.cons ?_ List.Chain.nil
          show st.sess.progress ≤ (upload_finish filename st).sess.progress
          rw [hp]
          exact uploadProgress_le _ _
        · intro s hs
          simp only [List.mem_singleton] at hs
          subst hs
          exact ⟨by norm_num [upload_finish], by norm_num [upload_finish]⟩
      · have hfr : ∀ x ∈ rest, x.2.1 = false ∧ x.2.2 = false := by
          intro x hx
          exact hf x (List.mem_cons_of_mem _ hx)
        set st2 := upload_chunk_step P key? (nonces.headD []) total_size st chunk
          with hst2
        have hc2 : st2.sess.completed = false := hc
        have hp2 : st2.sess.progress =
            min 100 (((st2.bytes_read : ℚ) / (total_size : ℚ)) * 100) := rfl
        obtain ⟨ihChain, ihMem, ihNe, ihLast, ihP, ihC, ihDrop⟩ :=
          ih nonces.tail st2 hfr hc2 hp2
        obtain ⟨a, l', hl⟩ := List.exists_cons_of_ne_nil ihNe
        have hrun : upload_file_run P key? filename total_size nonces
            ((chunk, false, false) :: rest) false st =
            ((upload_file_run P key? filename total_size nonces.tail rest false st2).1,
             st2.sess ::
               (upload_file_run P key? filename total_size nonces.tail rest false st2).2)
            := by
          simp only [upload_file_run, Bool.false_eq_true, if_false, hch, ite_false]
        rw [hrun]
        have hmono : st.sess.progress ≤ st2.sess.progress := by
          rw [hp, hp2]
          exact uploadProgress_mono total_size htot _ _ (Nat.le_add_right _ _)
        refine ⟨?_, ?_, by simp, ?_, ihP, ihC, ?_⟩
        · simp only [List.map_cons]
          exact List.Chain.cons hmono ihChain
        · intro s hs
          rcases List.mem_cons.mp hs with hs | hs
          · subst hs
            rw [hp2]
            exact ⟨uploadProgress_nonneg _ _, uploadProgress_le _ _⟩
          · exact ihMem s hs
        · rw [hl]
          rw [hl] at ihLast
          simpa [List.getLast?_cons_cons] using ihLast
        · rw [hl]
          rw [hl] at ihDrop
          intro s hs
          rcases List.mem_cons.mp (by simpa [List.dropLast_cons₂] using hs) with hs' | hs'
          · subst hs'
            exact hc2
          · exact ihDrop s hs'

/-- C8: for a transfer whose chunk-processing passes all succeed with no
cancellation observed, the tracker's progress snapshots form a
non-decreasing chain within [0, 100] that ends at 100, and the completed
flag is false on every snapshot except the final one, where it becomes
true (exactly once). -/
theorem upload_progress_monotone (P : GCM) (key? : Option (List Nat))
    (filename : String) (total_size : Nat) (nonces : List (List Nat))
    (steps : List (List Nat × Bool × Bool)) (htot : 1 ≤ total_size)
    (hf : ∀ x ∈ steps, x.2.1 = false ∧ x.2.2 = false) :
    List.Chain (· ≤ ·) 0
      ((upload_file_run P key? filename total_size nonces steps false
        initUpState).2.map Session.progress) ∧
    (∀ s ∈ (upload_file_run P key? filename total_size nonces steps false
        initUpState).2, 0 ≤ s.progress ∧ s.progress ≤ 100) ∧
    (upload_file_run P key? filename total_size nonces steps false
        initUpState).2.getLast? =
      some (upload_file_run P key? filename total_size nonces steps false
        initUpState).1.sess ∧
    (upload_file_run P key? filename total_size nonces steps false
        initUpState).1.sess.progress = 100 ∧
    (upload_file_run P key? filename total_size nonces steps false
        initUpState).1.sess.completed = true ∧
    (∀ s ∈ (upload_file_run P key? filename total_size nonces steps false
        initUpState).2.dropLast, s.completed = false) := by
  have hp0 : initUpState.sess.progress =
      min 100 (((initUpState.bytes_read : ℚ) / (total_size : ℚ)) * 100) := by
    norm_num [initUpState, defaultSession]
  obtain ⟨h1, h2, _, h4, h5, h6, h7⟩ :=
    upload_file_run_spec P key? filename total_size htot steps nonces initUpState
      hf rfl hp0
  exact ⟨h1, h2, h4, h5, h6, h7⟩

/-- Witness for C8 at a concrete input: a 3-byte upload in chunks of 1 and
2 bytes with no key established and no cancellation. -/
theorem upload_progress_monotone_witness :
    1 ≤ 3 ∧
    (∀ x ∈ [([1], false, false), ([2, 3], false, false)],
      (x : List Nat × Bool × Bool).2.1 = false ∧ x.2.2 = false) ∧
    (List.Chain (· ≤ ·) 0
      ((upload_file_run gcmModel none "f.txt" 3 [] [([1], false, false),
        ([2, 3], false, false)] false initUpState).2.map Session.progress) ∧
    (∀ s ∈ (upload_file_run gcmModel none "f.txt" 3 [] [([1], false, false),
        ([2, 3], false, false)] false initUpState).2,
      0 ≤ s.progress ∧ s.progress ≤ 100) ∧
    (upload_file_run gcmModel none "f.txt" 3 [] [([1], false, false),
        ([2, 3], false, false)] false initUpState).2.getLast? =
      some (upload_file_run gcmModel none "f.txt" 3 [] [([1], false, false),
        ([2, 3], false, false)] false initUpState).1.sess ∧
    (upload_file_run gcmModel none "f.txt" 3 [] [([1], false, false),
        ([2, 3], false, false)] false initUpState).1.sess.progress = 100 ∧
    (upload_file_run gcmModel none "f.txt" 3 [] [([1], false, false),
        ([2, 3], false, false)] false initUpState).1.sess.completed = true ∧
    (∀ s ∈ (upload_file_run gcmModel none "f.txt" 3 [] [([1], false, false),
        ([2, 3], false, false)] false initUpState).2.dropLast,
      s.completed = false)) :=
  ⟨by decide, by decide,
   upload_progress_monotone gcmModel none "f.txt" 3 [] [([1], false, false),
     ([2, 3], false, false)] (by decide) (by decide)⟩

/-- Every send the notifications keep-alive loop performs is a `ping`
addressed to the connection itself. -/
theorem notifLoop_pings (self : Nat) (recvs : List RecvOutcome) :
    ∀ e ∈ notifLoop self recvs, e.1 = self ∧ e.2 = NotifEvent.ping := by
  induction recvs with
  | nil => intro e he; simp [notifLoop] at he
  | cons o rest ih =>
      cases o with
      | msg =>
          intro e he
          rcases List.mem_cons.mp he with h | h
          · subst h; exact ⟨rfl, rfl⟩
          · exact ih e h
      | timeout =>
          intro e he
          simp only [notifLoop, List.mem_singleton] at he
          subst he; exact ⟨rfl, rfl⟩

/-- C9: while a client identifier has a live presence connection, a second
connection attempt for the same identifier is rejected and the state —
including the existing connection — is left intact and no events are sent
to it; after the existing connection disconnects (its handler's cleanup
runs), a new registration for the same identifier succeeds. -/
theorem presence_duplicate_rejected (st : PresenceState) (c : String)
    (self1 self2 self3 : Nat) (recvs : List RecvOutcome)
    (hc : c ≠ "") (h0 : st.byClient c = [])
    (hs2n : self2 ∉ st.notif) (hs21 : self2 ≠ self1) :
    (notif_register st (some c) self1).2 = true ∧
    (notif_register st (some c) self1).1.byClient c = [self1] ∧
    websocket_notifications (notif_register st (some c) self1).1 (some c) self2 recvs =
      ((notif_register st (some c) self1).1, [], false) ∧
    (notif_cleanup (notif_register st (some c) self1).1 (some c) self1).byClient c
      = [] ∧
    (notif_register (notif_cleanup (notif_register st (some c) self1).1 (some c) self1)
      (some c) self3).2 = true := by
  have hreg : notif_register st (some c) self1 =
      ({ notif := st.notif ++ [self1],
         byClient := fun k => if k = c then st.byClient c ++ [self1]
                              else st.byClient k }, true) := by
    simp [notif_register, hc, h0]
  have hby1 : (notif_register st (some c) self1).1.byClient c = [self1] := by
    rw [hreg]; simp [h0]
  refine ⟨by rw [hreg], hby1, ?_, ?_, ?_⟩
  · have hrej : notif_register (notif_register st (some c) self1).1 (some c) self2 =
        ((notif_register st (some c) self1).1, false) := by
      rw [notif_register.eq_def]
      simp only [hby1]
      simp [hc]
    have hclean : notif_cleanup (notif_register st (some c) self1).1 (some c) self2 =
        (notif_register st (some c) self1).1 := by
      rw [notif_cleanup.eq_def]
      have hnm : self2 ∉ (notif_register st (some c) self1).1.notif := by
        rw [hreg]
        simp [hs2n, hs21]
      simp only [if_neg hnm, hby1]
      simp [hs21]
    rw [websocket_notifications]
    simp only [hrej]
    simp [hclean]
  · rw [notif_cleanup.eq_def]
    have hmem : self1 ∈ (notif_register st (some c) self1).1.notif := by
      rw [hreg]; simp
    simp only [if_pos hmem, hby1]
    simp [hc]
  · rw [notif_cleanup.eq_def]
    have hmem : self1 ∈ (notif_register st (some c) self1).1.notif := by
      rw [hreg]; simp
    simp only [if_pos hmem, hby1]
    simp only [hc, ne_eq, not_false_iff, true_and, List.mem_singleton, if_pos rfl]
    simp [notif_register, hc]

/-- Witness for C9 at a concrete input. -/
theorem presence_duplicate_rejected_witness :
    ("alice" : String) ≠ "" ∧
    (PresenceState.mk [] (fun _ => [])).byClient "alice" = [] ∧
    (2 : Nat) ∉ (PresenceState.mk [] (fun _ => ([] : List Nat))).notif ∧
    (2 : Nat) ≠ 1 ∧
    ((notif_register (PresenceState.mk [] (fun _ => [])) (some "alice") 1).2 = true ∧
    (notif_register (PresenceState.mk [] (fun _ => []))
      (some "alice") 1).1.byClient "alice" = [1] ∧
    websocket_notifications (notif_register (PresenceState.mk [] (fun _ => []))
        (some "alice") 1).1 (some "alice") 2 [] =
      ((notif_register (PresenceState.mk [] (fun _ => [])) (some "alice") 1).1,
        [], false) ∧
    (notif_cleanup (notif_register (PresenceState.mk [] (fun _ => []))
      (some "alice") 1).1 (some "alice") 1).byClient "alice" = [] ∧
    (notif_register (notif_cleanup (notif_register (PresenceState.mk []
      (fun _ => [])) (some "alice") 1).1 (some "alice") 1) (some "alice") 3).2
      = true) :=
  ⟨by decide, rfl, by decide, by decide,
   presence_duplicate_rejected (PresenceState.mk [] (fun _ => [])) "alice" 1 2 3 []
     (by decide) rfl (by decide) (by decide)⟩

/-- Removing a fresh element appended at the end restores the list. -/
theorem erase_fresh_append (l : List Nat) (a : Nat) (h : a ∉ l) :
    (l ++ [a]).erase a = l := by
  rw [List.erase_append_right _ h, List.erase_cons_head, List.append_nil]

/-- C10, amended: a full run of the notifications handler sends only
`ping` events, all addressed to the connecting socket itself — no
`user_connected` broadcast to the other clients and no roster message to
the newcomer — and its cleanup removes the connection again, restoring the
notifications list and the client's connection list; no `user_disconnected`
event is broadcast on disconnect (including by timeout). -/
theorem presence_only_pings (st : PresenceState) (c : String) (self : Nat)
    (recvs : List RecvOutcome) (hn : self ∉ st.notif) (hb : self ∉ st.byClient c) :
    (∀ e ∈ (websocket_notifications st (some c) self recvs).2.1,
      e.1 = self ∧ e.2 = NotifEvent.ping) ∧
    (websocket_notifications st (some c) self recvs).1.notif = st.notif ∧
    (websocket_notifications st (some c) self recvs).1.byClient c = st.byClient c := by
  by_cases hcond : c ≠ "" ∧ st.byClient c ≠ []
  · have hreg : notif_register st (some c) self = (st, false) := by
      simp [notif_register, hcond.1, hcond.2]
    have hclean : notif_cleanup st (some c) self = st := by
      rw [notif_cleanup.eq_def]
      simp only [if_neg hn]
      simp [hb]
    rw [websocket_notifications]
    simp only [hreg, hclean]
    simp
  · by_cases hc : c = ""
    · subst hc
      have hreg : notif_register st (some "") self =
          ({ st with notif := st.notif ++ [self] }, true) := by
        simp [notif_register]
      have hmem : self ∈ st.notif ++ [self] :=
        List.mem_append_right _ (List.mem_singleton_self _)
      rw [websocket_notifications]
      simp only [hreg]
      refine ⟨notifLoop_pings self recvs, ?_, ?_⟩
      · rw [notif_cleanup.eq_def]
        simp only [hmem, if_pos]
        simp [erase_fresh_append st.notif self hn]
      · rw [notif_cleanup.eq_def]
        simp only [hmem, if_pos]
        simp
    · have hc' : c ≠ "" := hc
      have h0 : st.byClient c = [] := by
        by_contra hne
        exact hcond ⟨hc', hne⟩
      have hreg : notif_register st (some c) self =
          ({ notif := st.notif ++ [self],
             byClient := fun k => if k = c then st.byClient c ++ [self]
                                  else st.byClient k }, true) := by
        simp [notif_register, hc', h0]
      have hmem : self ∈ st.notif ++ [self] :=
        List.mem_append_right _ (List.mem_singleton_self _)
      rw [websocket_notifications]
      simp only [hreg]
      refine ⟨notifLoop_pings self recvs, ?_, ?_⟩
      · rw [notif_cleanup.eq_def]
        simp only [hmem, if_pos]
        simp [hc, erase_fresh_append st.notif self hn]
      · rw [notif_cleanup.eq_def]
        simp only [hmem, if_pos]
        simp [hc, erase_fresh_append _ self hb]

/-- C10 counterexample: the claim as stated — connecting broadcasts
`user_connected` to the other clients and then sends the newcomer the
roster — is false at a concrete input: with client "bob" (connection 1)
already on the channel, a full run for "alice" (connection 2) sends only
pings to connection 2: connection 1 receives nothing, no `user_connected`
event and no roster message is ever sent. -/
theorem presence_no_user_connected_counterexample :
    (websocket_notifications (PresenceState.mk [1]
        (fun k => if k = "bob" then [1] else [])) (some "alice") 2
        [RecvOutcome.msg, RecvOutcome.timeout]).2.1 =
      [(2, NotifEvent.ping), (2, NotifEvent.ping)] ∧
    (∀ e ∈ (websocket_notifications (PresenceState.mk [1]
        (fun k => if k = "bob" then [1] else [])) (some "alice") 2
        [RecvOutcome.msg, RecvOutcome.timeout]).2.1,
      e.1 ≠ 1 ∧ e.2 ≠ NotifEvent.userConnected "alice" ∧
      (∀ ids, e.2 ≠ NotifEvent.roster ids)) := by
  refine ⟨by decide, ?_⟩
  intro e he
  have h2 : e = (2, NotifEvent.ping) ∨ e = (2, NotifEvent.ping) := by
    have : (websocket_notifications (PresenceState.mk [1]
        (fun k => if k = "bob" then [1] else [])) (some "alice") 2
        [RecvOutcome.msg, RecvOutcome.timeout]).2.1 =
        [(2, NotifEvent.ping), (2, NotifEvent.ping)] := by decide
    rw [this] at he
    simpa using he
  rcases h2 with h | h <;> subst h <;>
    exact ⟨by decide, by decide, fun ids => by simp⟩

/-- Witness for the amended C10 at a concrete input. -/
theorem presence_only_pings_witness :
    (2 : Nat) ∉ (PresenceState.mk [1]
      (fun k => if k = "bob" then [1] else ([] : List Nat))).notif ∧
    (2 : Nat) ∉ (PresenceState.mk [1]
      (fun k => if k = "bob" then [1] else ([] : List Nat))).byClient "alice" ∧
    ((∀ e ∈ (websocket_notifications (PresenceState.mk [1]
        (fun k => if k = "bob" then [1] else ([] : List Nat))) (some "alice") 2
        [RecvOutcome.msg, RecvOutcome.timeout]).2.1,
      e.1 = 2 ∧ e.2 = NotifEvent.ping) ∧
    (websocket_notifications (PresenceState.mk [1]
        (fun k => if k = "bob" then [1] else ([] : List Nat))) (some "alice") 2
        [RecvOutcome.msg, RecvOutcome.timeout]).1.notif =
      (PresenceState.mk [1] (fun k => if k = "bob" then [1]
        else ([] : List Nat))).notif ∧
    (websocket_notifications (PresenceState.mk [1]
        (fun k => if k = "bob" then [1] else ([] : List Nat))) (some "alice") 2
        [RecvOutcome.msg, RecvOutcome.timeout]).1.byClient "alice" =
      (PresenceState.mk [1] (fun k => if k = "bob" then [1]
        else ([] : List Nat))).byClient "alice") :=
  ⟨by decide, by decide,
   presence_only_pings (PresenceState.mk [1]
     (fun k => if k = "bob" then [1] else ([] : List Nat))) "alice" 2
     [RecvOutcome.msg, RecvOutcome.timeout] (by decide) (by decide)⟩
